/-
A verification development for the batch review processor in
`Labfiles/01-analyze-text/Python/text-analysis/text-analysis.py`.

The script is embedded shallowly:
* the remote Azure Text Analytics client is a record of deterministic
  stub functions (`Service`), each returning `Except PyErr` of a list
  of results — the SDK returns one result object per submitted
  document, and the script submits a single document per call and
  indexes `[0]`;
* every `print(...)` and every remote call becomes an `Event` in a
  trace, so ordering claims are claims about trace structure;
* Python exceptions are `PyErr` values carrying the stringified
  message and whether the exception class is a subclass of
  `Exception` (the only thing the script's lone `except Exception`
  handler inspects); `KeyboardInterrupt`/`SystemExit` have
  `catchable = false`;
* floating point confidence scores are modelled as rationals, and
  Python's `:.2f` formatting as round-half-to-even to a hundredth.
-/
import Mathlib

namespace TextAnalysis

/-- A Python exception value: its `str(...)` message and whether its
class is a subclass of `Exception` (so that `except Exception`
catches it). `KeyboardInterrupt` and `SystemExit` derive from
`BaseException` only, hence `catchable = false`. -/
structure PyErr where
  msg : String
  catchable : Bool
deriving DecidableEq, Repr

/-- `IndexError` raised by `[0]` on an empty result list. -/
def indexError : PyErr := ⟨"list index out of range", true⟩

/-- The `primary_language` field of a detected-language result:
display name and ISO 639-1 code. -/
structure PrimaryLanguage where
  name : String
  iso6391_name : String
deriving DecidableEq, Repr

/-- One `DetectLanguageResult` as returned by `client.detect_language`. -/
structure DetectedLanguage where
  primary_language : PrimaryLanguage
deriving DecidableEq, Repr

/-- The three sentiment confidence scores (floats in Python, modelled
as rationals). -/
structure ConfidenceScores where
  positive : ℚ
  negative : ℚ
  neutral : ℚ
deriving DecidableEq

/-- One `AnalyzeSentimentResult`: overall label plus confidence scores. -/
structure SentimentResult where
  sentiment : String
  confidence_scores : ConfidenceScores
deriving DecidableEq

/-- One `ExtractKeyPhrasesResult`. -/
structure KeyPhrasesResult where
  key_phrases : List String
deriving DecidableEq, Repr

/-- One categorized entity from `recognize_entities`. -/
structure CategorizedEntity where
  text : String
  category : String
deriving DecidableEq, Repr

/-- One `RecognizeEntitiesResult`. -/
structure EntitiesResult where
  entities : List CategorizedEntity
deriving DecidableEq, Repr

/-- One linked entity from `recognize_linked_entities`. -/
structure LinkedEntity where
  name : String
  url : String
deriving DecidableEq, Repr

/-- One `RecognizeLinkedEntitiesResult`. -/
structure LinkedEntitiesResult where
  entities : List LinkedEntity
deriving DecidableEq, Repr

/-- The observable events of a run: console prints and outgoing remote
calls (each remote call records the submitted document batch and,
where the script passes one, the language hint). -/
inductive Event where
  | print (s : String)
  | callDetect (documents : List String)
  | callSentiment (documents : List String) (language : String)
  | callKeyPhrases (documents : List String) (language : String)
  | callEntities (documents : List String) (language : String)
  | callLinked (documents : List String) (language : String)
deriving DecidableEq, Repr

/-- The stub of `TextAnalyticsClient`: five deterministic operations,
each taking the submitted document batch (and a language hint for the
last four) and either raising a `PyErr` or returning one result per
document. -/
structure Service where
  detect_language : List String → Except PyErr (List DetectedLanguage)
  analyze_sentiment : List String → String → Except PyErr (List SentimentResult)
  extract_key_phrases : List String → String → Except PyErr (List KeyPhrasesResult)
  recognize_entities : List String → String → Except PyErr (List EntitiesResult)
  recognize_linked_entities : List String → String → Except PyErr (List LinkedEntitiesResult)

/-! ## Python `:.2f` formatting, on rationals -/

/-- Round to the nearest integer, ties to even — the rounding IEEE-754
binary64 (and hence Python's `format(x, '.2f')`) applies. -/
def roundHalfEven (q : ℚ) : ℤ :=
  if q - ⌊q⌋ < 1/2 then ⌊q⌋
  else if 1/2 < q - ⌊q⌋ then ⌊q⌋ + 1
  else if ⌊q⌋ % 2 = 0 then ⌊q⌋ else ⌊q⌋ + 1

/-- Two-digit zero-padded decimal rendering of a natural number below 100. -/
def pad2 (m : ℕ) : String :=
  if m < 10 then "0" ++ toString m else toString m

/-- Render a nonnegative number of hundredths as a fixed-point decimal
string with two fractional digits, e.g. `95 ↦ "0.95"`, `100 ↦ "1.00"`. -/
def fmtHundredths (m : ℕ) : String :=
  toString (m / 100) ++ "." ++ pad2 (m % 100)

/-- The embedding of a Python f-string field `{x:.2f}`. -/
def fmt2 (q : ℚ) : String :=
  if roundHalfEven (100 * q) < 0 then
    "-" ++ fmtHundredths (-(roundHalfEven (100 * q))).toNat
  else fmtHundredths (roundHalfEven (100 * q)).toNat

/-- Checks that a string ends in `.` followed by exactly two decimal
digits: the shape `{x:.2f}` promises. -/
def twoDecCheck (s : String) : Bool :=
  match s.data.reverse with
  | d2 :: d1 :: c :: _ => d1.isDigit && d2.isDigit && (c == '.')
  | _ => false

/-- The numeric value the rendered `{x:.2f}` field denotes. -/
def renderedValue (q : ℚ) : ℚ := (roundHalfEven (100 * q) : ℚ) / 100

/-- The `Scores: ...` line printed for a sentiment result (source line 75). -/
def scoresLine (c : ConfidenceScores) : String :=
  "Scores: Positive=" ++ fmt2 c.positive ++ ", Negative=" ++ fmt2 c.negative ++
    ", Neutral=" ++ fmt2 c.neutral

/-! ## The per-file pipeline (source lines 56–101) -/

/-- Sequence two trace-producing steps: if the first raises, the second
never runs (its trace does not appear). -/
def seqRun (a b : List Event × Option PyErr) : List Event × Option PyErr :=
  match a.2 with
  | some e => (a.1, some e)
  | none => (a.1 ++ b.1, b.2)

/-- Source lines 72–75: `analyze_sentiment(documents=[text], language=iso)[0]`,
then print the sentiment label and the scores line. -/
def sentimentStage (client : Service) (text iso : String) : List Event × Option PyErr :=
  match client.analyze_sentiment [text] iso with
  | .error e => ([Event.callSentiment [text] iso], some e)
  | .ok [] => ([Event.callSentiment [text] iso], some indexError)
  | .ok (s :: _) =>
    ([Event.callSentiment [text] iso,
      Event.print ("\nSentiment: " ++ s.sentiment),
      Event.print (scoresLine s.confidence_scores)], none)

/-- Source lines 79–83: `extract_key_phrases(...)[0]`, then, when the
key-phrase list is nonempty (Python truthiness of the list), print the
section header and one tab-indented line per phrase. -/
def phrasesStage (client : Service) (text iso : String) : List Event × Option PyErr :=
  match client.extract_key_phrases [text] iso with
  | .error e => ([Event.callKeyPhrases [text] iso], some e)
  | .ok [] => ([Event.callKeyPhrases [text] iso], some indexError)
  | .ok (p :: _) =>
    (Event.callKeyPhrases [text] iso ::
      (if p.key_phrases.isEmpty then [] else
        Event.print "\nKey Phrases:" ::
          p.key_phrases.map (fun phrase => Event.print ("\t" ++ phrase))), none)

/-- Source lines 87–92: `recognize_entities(...)[0]`, then, when the
entity list is nonempty, print the section header and one
`\t{text} ({category})` line per entity. -/
def entitiesStage (client : Service) (text iso : String) : List Event × Option PyErr :=
  match client.recognize_entities [text] iso with
  | .error e => ([Event.callEntities [text] iso], some e)
  | .ok [] => ([Event.callEntities [text] iso], some indexError)
  | .ok (r :: _) =>
    (Event.callEntities [text] iso ::
      (if r.entities.isEmpty then [] else
        Event.print "\nEntities:" ::
          r.entities.map (fun en =>
            Event.print ("\t" ++ en.text ++ " (" ++ en.category ++ ")"))), none)

/-- Source lines 96–101: `recognize_linked_entities(...)[0]`, then, when
the linked-entity list is nonempty, print the section header and one
`\t{name}: {url}` line per entity. -/
def linkedStage (client : Service) (text iso : String) : List Event × Option PyErr :=
  match client.recognize_linked_entities [text] iso with
  | .error e => ([Event.callLinked [text] iso], some e)
  | .ok [] => ([Event.callLinked [text] iso], some indexError)
  | .ok (r :: _) =>
    (Event.callLinked [text] iso ::
      (if r.entities.isEmpty then [] else
        Event.print "\nLinked Entities:" ::
          r.entities.map (fun en =>
            Event.print ("\t" ++ en.name ++ ": " ++ en.url))), none)

/-- Source lines 67–101, the part of a loop iteration after the raw
text has been printed: `detect_language(documents=[text])[0]`, print
the language name, then the four language-hinted stages in order. Any
raise aborts the remainder. -/
def afterRead (client : Service) (text : String) : List Event × Option PyErr :=
  match client.detect_language [text] with
  | .error e => ([Event.callDetect [text]], some e)
  | .ok [] => ([Event.callDetect [text]], some indexError)
  | .ok (d :: _) =>
    let iso := d.primary_language.iso6391_name
    let rest := seqRun (sentimentStage client text iso)
      (seqRun (phrasesStage client text iso)
        (seqRun (entitiesStage client text iso) (linkedStage client text iso)))
    (Event.callDetect [text] ::
      Event.print ("\nLanguage: " ++ d.primary_language.name) :: rest.1, rest.2)

/-- The loop body for one file (source lines 56–101): print the
separator header with the file name; read the file (may raise); print
the raw text; then `afterRead`. -/
def processFile (client : Service) (file_name : String)
    (readRes : Except PyErr String) : List Event × Option PyErr :=
  match readRes with
  | .error e => ([Event.print ("\n-------------\n" ++ file_name)], some e)
  | .ok text =>
    (Event.print ("\n-------------\n" ++ file_name) ::
      Event.print ("\n" ++ text) :: (afterRead client text).1,
     (afterRead client text).2)

/-- The `for file_name in os.listdir(reviews_folder)` loop: each entry
is a file name paired with the outcome of `open(...).read()`. A raise
inside one iteration aborts the whole loop. -/
def processFiles (client : Service) :
    List (String × Except PyErr String) → List Event × Option PyErr
  | [] => ([], none)
  | g :: rest =>
    match processFile client g.1 g.2 with
    | (tr, some e) => (tr, some e)
    | (tr, none) =>
      let after := processFiles client rest
      (tr ++ after.1, after.2)

/-- The body of the `try:` block: configuration and client construction
(`setup`, which may raise, e.g. an authentication failure), then
`os.listdir('reviews')` (`listing`, which may raise on a missing
folder), then the per-file loop. -/
def bodyRun (setup : Except PyErr Service)
    (listing : Except PyErr (List (String × Except PyErr String))) :
    List Event × Option PyErr :=
  match setup with
  | .error e => ([], some e)
  | .ok client =>
    match listing with
    | .error e => ([], some e)
    | .ok files => processFiles client files

/-- How the process ends: a normal `sys.exit`-free return with exit
code 0, or abnormal termination by an exception the `except Exception`
handler does not catch. -/
inductive ExitStatus where
  | normal : ℕ → ExitStatus
  | uncaught : PyErr → ExitStatus
deriving DecidableEq, Repr

/-- `main()` plus the interpreter: run the `try:` body; an in-flight
exception whose class derives from `Exception` is caught by the single
top-level handler (source lines 105–107), which prints `str(ex)` and
falls off the end of `main` (exit code 0); any other exception
propagates out and terminates the process abnormally. -/
def mainRun (setup : Except PyErr Service)
    (listing : Except PyErr (List (String × Except PyErr String))) :
    List Event × ExitStatus :=
  match bodyRun setup listing with
  | (tr, none) => (tr, ExitStatus.normal 0)
  | (tr, some e) =>
    if e.catchable then (tr ++ [Event.print e.msg], ExitStatus.normal 0)
    else (tr, ExitStatus.uncaught e)

/-! ## Observation helpers -/

/-- The console output of a trace: the printed strings, in order. -/
def printsOf (tr : List Event) : List String :=
  tr.filterMap fun e =>
    match e with
    | Event.print s => some s
    | _ => none

/-- Whether an event is an outgoing remote call. -/
def isCall (e : Event) : Bool :=
  match e with
  | Event.print _ => false
  | _ => true

/-- The remote calls of a trace, in order. -/
def callsOf (tr : List Event) : List Event := tr.filter isCall

/-- The bytes written to stdout: every `print` argument followed by the
newline `print` appends. -/
def stdoutOf (run : List Event × ExitStatus) : String :=
  String.join ((printsOf run.1).map (fun s => s ++ "\n"))

/-- Whether an event is the separator-header print of one of the given
file names. -/
def isHeaderOf (names : List String) (e : Event) : Bool :=
  match e with
  | Event.print s => names.any (fun n => s == "\n-------------\n" ++ n)
  | _ => false

/-- The printed lines §4.1 step 4 of the spec prescribes for one
successfully processed file, written from the spec's words: file name
header, raw text, detected language name, sentiment label, the three
confidence scores, then key phrases (if any, one per line, indented),
then entities as `text (category)` (if any), then linked entities as
`name: url` (if any). -/
def specFileOutput (file_name text : String) (lang : DetectedLanguage)
    (s : SentimentResult) (phrases : List String)
    (ents : List CategorizedEntity) (links : List LinkedEntity) : List String :=
  ["\n-------------\n" ++ file_name,
   "\n" ++ text,
   "\nLanguage: " ++ lang.primary_language.name,
   "\nSentiment: " ++ s.sentiment,
   scoresLine s.confidence_scores] ++
  (if phrases.isEmpty then [] else
    "\nKey Phrases:" :: phrases.map (fun p => "\t" ++ p)) ++
  (if ents.isEmpty then [] else
    "\nEntities:" :: ents.map (fun en => "\t" ++ en.text ++ " (" ++ en.category ++ ")")) ++
  (if links.isEmpty then [] else
    "\nLinked Entities:" :: links.map (fun en => "\t" ++ en.name ++ ": " ++ en.url))

/-! ## Concrete stub values used to exercise the theorems -/

/-- A network failure raised by a remote call; `ConnectionError` is a
subclass of `Exception`, so the top-level handler catches it. -/
def netErr : PyErr := ⟨"(ConnectionError) connection failed", true⟩

/-- `KeyboardInterrupt` derives from `BaseException`, not `Exception`,
and `str()` of a bare one is empty. -/
def keyboardInterrupt : PyErr := ⟨"", false⟩

/-- A deterministic stub service on whose results every call succeeds. -/
def stubClient : Service where
  detect_language := fun _ => .ok [⟨⟨"English", "en"⟩⟩]
  analyze_sentiment := fun _ _ => .ok [⟨"positive", ⟨9/10, 1/20, 1/20⟩⟩]
  extract_key_phrases := fun _ _ => .ok [⟨["great hotel"]⟩]
  recognize_entities := fun _ _ => .ok [⟨[⟨"London", "Location"⟩]⟩]
  recognize_linked_entities := fun _ _ =>
    .ok [⟨[⟨"London", "https://en.wikipedia.org/wiki/London"⟩]⟩]

/-- The stub service, except entity recognition raises a network error
on one particular document. -/
def flakyClient : Service :=
  { stubClient with recognize_entities := fun docs _ =>
      if docs = ["This is bad."] then Except.error netErr
      else Except.ok [⟨[⟨"London", "Location"⟩]⟩] }

/-- The stub service, except the key-phrase result is the empty list. -/
def quietClient : Service :=
  { stubClient with extract_key_phrases := fun _ _ => .ok [⟨[]⟩] }

/-- A concrete two-file folder listing used to exercise the theorems. -/
def twoFileFolder : List (String × Except PyErr String) :=
  [("a.txt", Except.ok "One."), ("b.txt", Except.ok "Two.")]

/-! ## Helper lemmas -/

theorem str_ne_of_take (k : ℕ) {s t : String} (h : s.data.take k ≠ t.data.take k) :
    s ≠ t :=
  fun he => h (by rw [he])

theorem rhe_ge_floor (q : ℚ) : ⌊q⌋ ≤ roundHalfEven q := by
  unfold roundHalfEven
  split_ifs <;> omega

theorem rhe_le_ceil (q : ℚ) : roundHalfEven q ≤ ⌈q⌉ := by
  unfold roundHalfEven
  have hfc := Int.floor_le_ceil q
  have hlt : (⌊q⌋ : ℚ) < q → ⌊q⌋ + 1 ≤ ⌈q⌉ := by
    intro h
    have : ⌊q⌋ < ⌈q⌉ := Int.lt_ceil.mpr h
    omega
  split_ifs with h1 h2 h3
  · omega
  · exact hlt (by linarith)
  · omega
  · exact hlt (by linarith)

theorem rhe_nonneg {q : ℚ} (h : 0 ≤ q) : 0 ≤ roundHalfEven q :=
  le_trans (Int.floor_nonneg.mpr h) (rhe_ge_floor q)

theorem rhe_le_hundred {q : ℚ} (h : q ≤ 100) : roundHalfEven q ≤ 100 := by
  refine le_trans (rhe_le_ceil q) ?_
  calc ⌈q⌉ ≤ ⌈(100 : ℚ)⌉ := Int.ceil_le_ceil h
  _ = 100 := by norm_num

set_option maxRecDepth 4000 in
theorem fmtHundredths_check : ∀ m : ℕ, m < 101 → twoDecCheck (fmtHundredths m) = true := by
  decide

theorem fmt2_two_decimals {q : ℚ} (h0 : 0 ≤ q) (h1 : q ≤ 1) :
    twoDecCheck (fmt2 q) = true ∧ 0 ≤ renderedValue q ∧ renderedValue q ≤ 1 := by
  have hq0 : (0 : ℚ) ≤ 100 * q := by linarith
  have hq1 : (100 : ℚ) * q ≤ 100 := by linarith
  have hn0 := rhe_nonneg hq0
  have hn1 := rhe_le_hundred hq1
  refine ⟨?_, ?_, ?_⟩
  · have hfmt : fmt2 q = fmtHundredths (roundHalfEven (100 * q)).toNat := by
      unfold fmt2
      rw [if_neg (not_lt.mpr hn0)]
    rw [hfmt]
    exact fmtHundredths_check _ (by omega)
  · unfold renderedValue
    apply div_nonneg _ (by norm_num)
    exact_mod_cast hn0
  · unfold renderedValue
    rw [div_le_one (by norm_num)]
    exact_mod_cast hn1

theorem printsOf_nil : printsOf [] = [] := rfl

theorem printsOf_cons_print (s : String) (tr : List Event) :
    printsOf (Event.print s :: tr) = s :: printsOf tr := rfl

theorem printsOf_cons_callDetect (d : List String) (tr : List Event) :
    printsOf (Event.callDetect d :: tr) = printsOf tr := rfl

theorem printsOf_cons_callSentiment (d : List String) (i : String) (tr : List Event) :
    printsOf (Event.callSentiment d i :: tr) = printsOf tr := rfl

theorem printsOf_cons_callKeyPhrases (d : List String) (i : String) (tr : List Event) :
    printsOf (Event.callKeyPhrases d i :: tr) = printsOf tr := rfl

theorem printsOf_cons_callEntities (d : List String) (i : String) (tr : List Event) :
    printsOf (Event.callEntities d i :: tr) = printsOf tr := rfl

theorem printsOf_cons_callLinked (d : List String) (i : String) (tr : List Event) :
    printsOf (Event.callLinked d i :: tr) = printsOf tr := rfl

theorem printsOf_append (a b : List Event) :
    printsOf (a ++ b) = printsOf a ++ printsOf b :=
  List.filterMap_append a b _

theorem printsOf_map_print {α : Type} (f : α → String) (l : List α) :
    printsOf (l.map fun a => Event.print (f a)) = l.map f := by
  induction l with
  | nil => rfl
  | cons a l ih => simp only [List.map_cons, printsOf_cons_print, ih]

theorem callsOf_nil : callsOf [] = [] := rfl

theorem callsOf_cons_print (s : String) (tr : List Event) :
    callsOf (Event.print s :: tr) = callsOf tr := rfl

theorem callsOf_cons_callDetect (d : List String) (tr : List Event) :
    callsOf (Event.callDetect d :: tr) = Event.callDetect d :: callsOf tr := rfl

theorem callsOf_cons_callSentiment (d : List String) (i : String) (tr : List Event) :
    callsOf (Event.callSentiment d i :: tr) = Event.callSentiment d i :: callsOf tr := rfl

theorem callsOf_cons_callKeyPhrases (d : List String) (i : String) (tr : List Event) :
    callsOf (Event.callKeyPhrases d i :: tr) = Event.callKeyPhrases d i :: callsOf tr := rfl

theorem callsOf_cons_callEntities (d : List String) (i : String) (tr : List Event) :
    callsOf (Event.callEntities d i :: tr) = Event.callEntities d i :: callsOf tr := rfl

theorem callsOf_cons_callLinked (d : List String) (i : String) (tr : List Event) :
    callsOf (Event.callLinked d i :: tr) = Event.callLinked d i :: callsOf tr := rfl

theorem callsOf_append (a b : List Event) :
    callsOf (a ++ b) = callsOf a ++ callsOf b :=
  List.filter_append a b

theorem callsOf_map_print {α : Type} (f : α → String) (l : List α) :
    callsOf (l.map fun a => Event.print (f a)) = [] := by
  induction l with
  | nil => rfl
  | cons a l ih => simp only [List.map_cons, callsOf_cons_print, ih]

theorem mem_printsOf {s : String} {tr : List Event} :
    s ∈ printsOf tr ↔ Event.print s ∈ tr := by
  unfold printsOf
  rw [List.mem_filterMap]
  constructor
  · rintro ⟨e, he, hsome⟩
    cases e with
    | print s2 =>
      simp only [Option.some.injEq] at hsome
      subst hsome
      exact he
    | callDetect d => simp at hsome
    | callSentiment d i => simp at hsome
    | callKeyPhrases d i => simp at hsome
    | callEntities d i => simp at hsome
    | callLinked d i => simp at hsome
  · intro h
    exact ⟨Event.print s, h, rfl⟩

theorem seqRun_fst_mem {a b : List Event × Option PyErr} {e : Event}
    (h : e ∈ (seqRun a b).1) : e ∈ a.1 ∨ e ∈ b.1 := by
  unfold seqRun at h
  cases ha : a.2 with
  | none =>
    rw [ha] at h
    exact List.mem_append.mp h
  | some err =>
    rw [ha] at h
    exact Or.inl h

theorem key_ne_sep (n : String) : "\nKey Phrases:" ≠ ("\n-------------\n" ++ n) := by
  apply str_ne_of_take 2
  rw [String.data_append, List.take_append_of_le_length (by decide)]
  decide

theorem key_ne_text {t : String} (ht : t ≠ "Key Phrases:") :
    "\nKey Phrases:" ≠ ("\n" ++ t) := by
  intro h
  apply ht
  have h2 : ("\n" ++ t) = ("\n" ++ "Key Phrases:") := by rw [← h]; decide
  have h3 := congrArg String.data h2
  rw [String.data_append, String.data_append] at h3
  exact String.ext (List.append_cancel_left h3)

theorem key_ne_lang (x : String) : "\nKey Phrases:" ≠ ("\nLanguage: " ++ x) := by
  apply str_ne_of_take 2
  rw [String.data_append, List.take_append_of_le_length (by decide)]
  decide

theorem key_ne_sent (x : String) : "\nKey Phrases:" ≠ ("\nSentiment: " ++ x) := by
  apply str_ne_of_take 2
  rw [String.data_append, List.take_append_of_le_length (by decide)]
  decide

theorem key_ne_scores (c : ConfidenceScores) : "\nKey Phrases:" ≠ scoresLine c := by
  apply str_ne_of_take 1
  simp only [scoresLine, String.data_append, List.append_assoc]
  rw [List.take_append_of_le_length (by decide)]
  decide

theorem key_ne_ent (x y : String) :
    "\nKey Phrases:" ≠ ("\t" ++ x ++ " (" ++ y ++ ")") := by
  apply str_ne_of_take 1
  simp only [String.data_append, List.append_assoc]
  rw [List.take_append_of_le_length (by decide)]
  decide

theorem key_ne_link (x y : String) :
    "\nKey Phrases:" ≠ ("\t" ++ x ++ ": " ++ y) := by
  apply str_ne_of_take 1
  simp only [String.data_append, List.append_assoc]
  rw [List.take_append_of_le_length (by decide)]
  decide

theorem key_ne_enthdr : "\nKey Phrases:" ≠ "\nEntities:" := by decide

theorem key_ne_linkhdr : "\nKey Phrases:" ≠ "\nLinked Entities:" := by decide

theorem ent_ne_key (x y : String) :
    ("\t" ++ x ++ " (" ++ y ++ ")") ≠ "\nKey Phrases:" :=
  (key_ne_ent x y).symm

theorem link_ne_key (x y : String) :
    ("\t" ++ x ++ ": " ++ y) ≠ "\nKey Phrases:" :=
  (key_ne_link x y).symm

theorem key_not_in_sentimentStage (client : Service) (text iso : String) :
    Event.print "\nKey Phrases:" ∉ (sentimentStage client text iso).1 := by
  rcases h : client.analyze_sentiment [text] iso with e | ls
  · simp [sentimentStage, h]
  · rcases ls with _ | ⟨s, ss⟩
    · simp [sentimentStage, h]
    · simp [sentimentStage, h, key_ne_sent, key_ne_scores]

theorem key_not_in_entitiesStage (client : Service) (text iso : String) :
    Event.print "\nKey Phrases:" ∉ (entitiesStage client text iso).1 := by
  rcases h : client.recognize_entities [text] iso with e | ls
  · simp [entitiesStage, h]
  · rcases ls with _ | ⟨r, rs⟩
    · simp [entitiesStage, h]
    · cases hie : r.entities.isEmpty
      · simp [entitiesStage, h, hie, key_ne_enthdr, ent_ne_key, key_ne_ent]
      · simp [entitiesStage, h, hie]

theorem key_not_in_linkedStage (client : Service) (text iso : String) :
    Event.print "\nKey Phrases:" ∉ (linkedStage client text iso).1 := by
  rcases h : client.recognize_linked_entities [text] iso with e | ls
  · simp [linkedStage, h]
  · rcases ls with _ | ⟨r, rs⟩
    · simp [linkedStage, h]
    · cases hie : r.entities.isEmpty
      · simp [linkedStage, h, hie, key_ne_linkhdr, link_ne_key, key_ne_link]
      · simp [linkedStage, h, hie]

theorem processFiles_nil (client : Service) : processFiles client [] = ([], none) := rfl

theorem processFiles_cons (client : Service) (g : String × Except PyErr String)
    (rest : List (String × Except PyErr String)) :
    processFiles client (g :: rest) =
      match processFile client g.1 g.2 with
      | (tr, some e) => (tr, some e)
      | (tr, none) =>
        (tr ++ (processFiles client rest).1, (processFiles client rest).2) := rfl

theorem ne_sep_of_take (k : ℕ) {s : String} (n : String)
    (h : s.data.take k ≠ ("\n-------------\n".data).take k) (hk : k ≤ 15) :
    s ≠ ("\n-------------\n" ++ n) := by
  apply str_ne_of_take k
  have hlen : ("\n-------------\n".data).length = 15 := by decide
  rw [String.data_append, List.take_append_of_le_length (by rw [hlen]; exact hk)]
  exact h

theorem lang_ne_sep (x n : String) : ("\nLanguage: " ++ x) ≠ ("\n-------------\n" ++ n) :=
  ne_sep_of_take 2 n
    (by rw [String.data_append, List.take_append_of_le_length (by decide)]; decide)
    (by decide)

theorem sent_ne_sep (x n : String) :
    ("\nSentiment: " ++ x) ≠ ("\n-------------\n" ++ n) :=
  ne_sep_of_take 2 n
    (by rw [String.data_append, List.take_append_of_le_length (by decide)]; decide)
    (by decide)

theorem scores_ne_sep (c : ConfidenceScores) (n : String) :
    scoresLine c ≠ ("\n-------------\n" ++ n) :=
  ne_sep_of_take 1 n
    (by
      simp only [scoresLine, String.data_append, List.append_assoc]
      rw [List.take_append_of_le_length (by decide)]
      decide)
    (by decide)

theorem keyhdr_ne_sep (n : String) : "\nKey Phrases:" ≠ ("\n-------------\n" ++ n) :=
  ne_sep_of_take 2 n (by decide) (by decide)

theorem enthdr_ne_sep (n : String) : "\nEntities:" ≠ ("\n-------------\n" ++ n) :=
  ne_sep_of_take 2 n (by decide) (by decide)

theorem linkhdr_ne_sep (n : String) :
    "\nLinked Entities:" ≠ ("\n-------------\n" ++ n) :=
  ne_sep_of_take 2 n (by decide) (by decide)

theorem tab_ne_sep (x n : String) : ("\t" ++ x) ≠ ("\n-------------\n" ++ n) :=
  ne_sep_of_take 1 n
    (by rw [String.data_append, List.take_append_of_le_length (by decide)]; decide)
    (by decide)

theorem ent_ne_sep (x y n : String) :
    ("\t" ++ x ++ " (" ++ y ++ ")") ≠ ("\n-------------\n" ++ n) :=
  ne_sep_of_take 1 n
    (by
      simp only [String.data_append, List.append_assoc]
      rw [List.take_append_of_le_length (by decide)]
      decide)
    (by decide)

theorem link_ne_sep (x y n : String) :
    ("\t" ++ x ++ ": " ++ y) ≠ ("\n-------------\n" ++ n) :=
  ne_sep_of_take 1 n
    (by
      simp only [String.data_append, List.append_assoc]
      rw [List.take_append_of_le_length (by decide)]
      decide)
    (by decide)

theorem text_ne_sep {t m : String} (h : t ≠ ("-------------\n" ++ m)) :
    ("\n" ++ t) ≠ ("\n-------------\n" ++ m) := by
  intro he
  apply h
  have hsplit : ("\n-------------\n" : String) = "\n" ++ "-------------\n" := by decide
  rw [hsplit, String.append_assoc] at he
  have h3 := congrArg String.data he
  rw [String.data_append, String.data_append] at h3
  exact String.ext (List.append_cancel_left h3)

theorem isHeaderOf_print_false {names : List String} {s : String}
    (h : ∀ n ∈ names, s ≠ ("\n-------------\n" ++ n)) :
    isHeaderOf names (Event.print s) = false := by
  unfold isHeaderOf
  rw [List.any_eq_false]
  intro n hn
  simp only [beq_iff_eq]
  exact h n hn

theorem isHeaderOf_print_self {names : List String} {n : String} (hn : n ∈ names) :
    isHeaderOf names (Event.print ("\n-------------\n" ++ n)) = true := by
  unfold isHeaderOf
  rw [List.any_eq_true]
  exact ⟨n, hn, by simp⟩

theorem no_header_sentimentStage (names : List String) (client : Service)
    (text iso : String) :
    ∀ e ∈ (sentimentStage client text iso).1, isHeaderOf names e = false := by
  intro e he
  rcases h : client.analyze_sentiment [text] iso with err | ls
  · simp only [sentimentStage, h, List.mem_singleton] at he
    subst he; rfl
  · rcases ls with _ | ⟨s, ss⟩
    · simp only [sentimentStage, h, List.mem_singleton] at he
      subst he; rfl
    · simp only [sentimentStage, h, List.mem_cons, List.not_mem_nil, or_false] at he
      rcases he with rfl | rfl | rfl
      · rfl
      · exact isHeaderOf_print_false (fun n _ => sent_ne_sep s.sentiment n)
      · exact isHeaderOf_print_false (fun n _ => scores_ne_sep s.confidence_scores n)

theorem no_header_phrasesStage (names : List String) (client : Service)
    (text iso : String) :
    ∀ e ∈ (phrasesStage client text iso).1, isHeaderOf names e = false := by
  intro e he
  rcases h : client.extract_key_phrases [text] iso with err | ls
  · simp only [phrasesStage, h, List.mem_singleton] at he
    subst he; rfl
  · rcases ls with _ | ⟨p, ps⟩
    · simp only [phrasesStage, h, List.mem_singleton] at he
      subst he; rfl
    · simp only [phrasesStage, h, List.mem_cons] at he
      rcases he with rfl | he2
      · rfl
      · cases hie : p.key_phrases.isEmpty
        · rw [hie] at he2
          simp only [Bool.false_eq_true, if_false, List.mem_cons] at he2
          rcases he2 with rfl | he3
          · exact isHeaderOf_print_false (fun n _ => keyhdr_ne_sep n)
          · obtain ⟨ph, _, rfl⟩ := List.mem_map.mp he3
            exact isHeaderOf_print_false (fun n _ => tab_ne_sep ph n)
        · rw [hie] at he2
          simp at he2

theorem no_header_entitiesStage (names : List String) (client : Service)
    (text iso : String) :
    ∀ e ∈ (entitiesStage client text iso).1, isHeaderOf names e = false := by
  intro e he
  rcases h : client.recognize_entities [text] iso with err | ls
  · simp only [entitiesStage, h, List.mem_singleton] at he
    subst he; rfl
  · rcases ls with _ | ⟨r, rs⟩
    · simp only [entitiesStage, h, List.mem_singleton] at he
      subst he; rfl
    · simp only [entitiesStage, h, List.mem_cons] at he
      rcases he with rfl | he2
      · rfl
      · cases hie : r.entities.isEmpty
        · rw [hie] at he2
          simp only [Bool.false_eq_true, if_false, List.mem_cons] at he2
          rcases he2 with rfl | he3
          · exact isHeaderOf_print_false (fun n _ => enthdr_ne_sep n)
          · obtain ⟨en, _, rfl⟩ := List.mem_map.mp he3
            exact isHeaderOf_print_false (fun n _ => ent_ne_sep en.text en.category n)
        · rw [hie] at he2
          simp at he2

theorem no_header_linkedStage (names : List String) (client : Service)
    (text iso : String) :
    ∀ e ∈ (linkedStage client text iso).1, isHeaderOf names e = false := by
  intro e he
  rcases h : client.recognize_linked_entities [text] iso with err | ls
  · simp only [linkedStage, h, List.mem_singleton] at he
    subst he; rfl
  · rcases ls with _ | ⟨r, rs⟩
    · simp only [linkedStage, h, List.mem_singleton] at he
      subst he; rfl
    · simp only [linkedStage, h, List.mem_cons] at he
      rcases he with rfl | he2
      · rfl
      · cases hie : r.entities.isEmpty
        · rw [hie] at he2
          simp only [Bool.false_eq_true, if_false, List.mem_cons] at he2
          rcases he2 with rfl | he3
          · exact isHeaderOf_print_false (fun n _ => linkhdr_ne_sep n)
          · obtain ⟨en, _, rfl⟩ := List.mem_map.mp he3
            exact isHeaderOf_print_false (fun n _ => link_ne_sep en.name en.url n)
        · rw [hie] at he2
          simp at he2

theorem no_header_afterRead (names : List String) (client : Service) (t : String) :
    ∀ e ∈ (afterRead client t).1, isHeaderOf names e = false := by
  intro e he
  rcases h : client.detect_language [t] with err | ls
  · simp only [afterRead, h, List.mem_singleton] at he
    subst he; rfl
  · rcases ls with _ | ⟨d, ds⟩
    · simp only [afterRead, h, List.mem_singleton] at he
      subst he; rfl
    · simp only [afterRead, h, List.mem_cons] at he
      rcases he with rfl | rfl | he2
      · rfl
      · exact isHeaderOf_print_false (fun n _ => lang_ne_sep d.primary_language.name n)
      · rcases seqRun_fst_mem he2 with h1 | h23
        · exact no_header_sentimentStage names client t _ e h1
        rcases seqRun_fst_mem h23 with h2 | h34
        · exact no_header_phrasesStage names client t _ e h2
        rcases seqRun_fst_mem h34 with h3 | h4
        · exact no_header_entitiesStage names client t _ e h3
        · exact no_header_linkedStage names client t _ e h4

theorem processFile_filter_header (client : Service) (names : List String)
    (g : String × Except PyErr String)
    (hn : g.1 ∈ names)
    (hcol : ∀ t, g.2 = Except.ok t → ∀ m ∈ names, t ≠ ("-------------\n" ++ m))
    (hsucc : (processFile client g.1 g.2).2 = none) :
    (processFile client g.1 g.2).1.filter (isHeaderOf names) =
      [Event.print ("\n-------------\n" ++ g.1)] := by
  rcases hc : g.2 with e | t
  · rw [hc] at hsucc
    exact absurd hsucc (by simp [processFile])
  · simp only [processFile]
    rw [List.filter_cons_of_pos (isHeaderOf_print_self hn),
      List.filter_cons_of_neg
        (by simp only [isHeaderOf_print_false
          (fun m hm => text_ne_sep (hcol t hc m hm))]; simp),
      List.filter_eq_nil_iff.mpr
        (fun e he => by simp only [no_header_afterRead names client t e he]; simp)]

theorem processFiles_filter_header (client : Service) (names : List String)
    (files : List (String × Except PyErr String))
    (h1 : ∀ g ∈ files, g.1 ∈ names)
    (h2 : ∀ g ∈ files, ∀ t, g.2 = Except.ok t → ∀ m ∈ names, t ≠ ("-------------\n" ++ m))
    (h3 : (processFiles client files).2 = none) :
    (processFiles client files).1.filter (isHeaderOf names) =
      files.map (fun g => Event.print ("\n-------------\n" ++ g.1)) := by
  induction files with
  | nil => rfl
  | cons g rest ih =>
    rcases hg : processFile client g.1 g.2 with ⟨trg, _ | e⟩
    · have hcons : processFiles client (g :: rest) =
          (trg ++ (processFiles client rest).1, (processFiles client rest).2) := by
        rw [processFiles_cons, hg]
      rw [hcons] at h3 ⊢
      have hfg : trg.filter (isHeaderOf names) =
          [Event.print ("\n-------------\n" ++ g.1)] := by
        have := processFile_filter_header client names g
          (h1 g (List.mem_cons_self g rest))
          (h2 g (List.mem_cons_self g rest)) (by rw [hg])
        rw [hg] at this
        exact this
      rw [List.filter_append, hfg,
        ih (fun x hx => h1 x (List.mem_cons_of_mem g hx))
          (fun x hx => h2 x (List.mem_cons_of_mem g hx)) h3]
      rfl
    · exfalso
      have hcons : processFiles client (g :: rest) = (trg, some e) := by
        rw [processFiles_cons, hg]
      rw [hcons] at h3
      exact Option.noConfusion h3

/-! ## The claims -/

/-- C7: each of the three sentiment confidence scores is rendered by
the `Scores:` line through `{x:.2f}` formatting, which produces exactly
two decimal digits, and under the precondition that the service returns
values in `[0, 1]`, every rendered value lies in `[0.00, 1.00]`. -/
theorem claim_C7 (c : ConfidenceScores)
    (hp0 : 0 ≤ c.positive) (hp1 : c.positive ≤ 1)
    (hg0 : 0 ≤ c.negative) (hg1 : c.negative ≤ 1)
    (hu0 : 0 ≤ c.neutral) (hu1 : c.neutral ≤ 1) :
    scoresLine c = "Scores: Positive=" ++ fmt2 c.positive ++ ", Negative=" ++
        fmt2 c.negative ++ ", Neutral=" ++ fmt2 c.neutral ∧
      (twoDecCheck (fmt2 c.positive) = true ∧
        0 ≤ renderedValue c.positive ∧ renderedValue c.positive ≤ 1) ∧
      (twoDecCheck (fmt2 c.negative) = true ∧
        0 ≤ renderedValue c.negative ∧ renderedValue c.negative ≤ 1) ∧
      (twoDecCheck (fmt2 c.neutral) = true ∧
        0 ≤ renderedValue c.neutral ∧ renderedValue c.neutral ≤ 1) :=
  ⟨rfl, fmt2_two_decimals hp0 hp1, fmt2_two_decimals hg0 hg1,
    fmt2_two_decimals hu0 hu1⟩

/-- C7, exercised at the stub service's confidence scores. -/
theorem claim_C7_check :
    ((0 : ℚ) ≤ 9/10 ∧ (9/10 : ℚ) ≤ 1 ∧ (0 : ℚ) ≤ 1/20 ∧ (1/20 : ℚ) ≤ 1) ∧
      (scoresLine ⟨9/10, 1/20, 1/20⟩ = "Scores: Positive=" ++ fmt2 (9/10) ++
          ", Negative=" ++ fmt2 (1/20) ++ ", Neutral=" ++ fmt2 (1/20) ∧
        (twoDecCheck (fmt2 (9/10)) = true ∧
          0 ≤ renderedValue (9/10) ∧ renderedValue (9/10) ≤ 1) ∧
        (twoDecCheck (fmt2 (1/20)) = true ∧
          0 ≤ renderedValue (1/20) ∧ renderedValue (1/20) ≤ 1) ∧
        (twoDecCheck (fmt2 (1/20)) = true ∧
          0 ≤ renderedValue (1/20) ∧ renderedValue (1/20) ≤ 1)) :=
  ⟨⟨by norm_num, by norm_num, by norm_num, by norm_num⟩,
    claim_C7 ⟨9/10, 1/20, 1/20⟩ (by norm_num) (by norm_num) (by norm_num)
      (by norm_num) (by norm_num) (by norm_num)⟩

/-- C2: for every file processed successfully, the printed output is
exactly the fixed section order the spec prescribes — header, raw
text, language name, sentiment label, scores line, then the three
optional sections — as captured by `specFileOutput`, and the file's
processing raises nothing. -/
theorem claim_C2 (client : Service) (file_name text : String)
    (d : DetectedLanguage) (ds : List DetectedLanguage)
    (s : SentimentResult) (ss : List SentimentResult)
    (p : KeyPhrasesResult) (ps : List KeyPhrasesResult)
    (r : EntitiesResult) (rs : List EntitiesResult)
    (l : LinkedEntitiesResult) (ls : List LinkedEntitiesResult)
    (hd : client.detect_language [text] = Except.ok (d :: ds))
    (hs : client.analyze_sentiment [text] d.primary_language.iso6391_name =
      Except.ok (s :: ss))
    (hp : client.extract_key_phrases [text] d.primary_language.iso6391_name =
      Except.ok (p :: ps))
    (hr : client.recognize_entities [text] d.primary_language.iso6391_name =
      Except.ok (r :: rs))
    (hl : client.recognize_linked_entities [text] d.primary_language.iso6391_name =
      Except.ok (l :: ls)) :
    printsOf (processFile client file_name (Except.ok text)).1 =
        specFileOutput file_name text d s p.key_phrases r.entities l.entities ∧
      (processFile client file_name (Except.ok text)).2 = none := by
  constructor
  · simp only [processFile, afterRead, hd, sentimentStage, hs, phrasesStage, hp,
      entitiesStage, hr, linkedStage, hl, seqRun, specFileOutput]
    simp only [printsOf_cons_print, printsOf_cons_callDetect,
      printsOf_cons_callSentiment, printsOf_cons_callKeyPhrases,
      printsOf_cons_callEntities, printsOf_cons_callLinked, printsOf_append,
      printsOf_nil, apply_ite printsOf, printsOf_map_print, List.cons_append,
      List.nil_append, List.append_assoc]
  · simp only [processFile, afterRead, hd, sentimentStage, hs, phrasesStage, hp,
      entitiesStage, hr, linkedStage, hl, seqRun]

/-- C2, exercised at the deterministic stub service. -/
theorem claim_C2_check :
    printsOf (processFile stubClient "review1.txt" (Except.ok "Good value.")).1 =
        specFileOutput "review1.txt" "Good value." ⟨⟨"English", "en"⟩⟩
          ⟨"positive", ⟨9/10, 1/20, 1/20⟩⟩ ["great hotel"] [⟨"London", "Location"⟩]
          [⟨"London", "https://en.wikipedia.org/wiki/London"⟩] ∧
      (processFile stubClient "review1.txt" (Except.ok "Good value.")).2 = none :=
  claim_C2 stubClient "review1.txt" "Good value." ⟨⟨"English", "en"⟩⟩ []
    ⟨"positive", ⟨9/10, 1/20, 1/20⟩⟩ [] ⟨["great hotel"]⟩ []
    ⟨[⟨"London", "Location"⟩]⟩ []
    ⟨[⟨"London", "https://en.wikipedia.org/wiki/London"⟩]⟩ []
    rfl rfl rfl rfl rfl

/-- C3: in a run where every file processes cleanly, the header-print
events of the trace are exactly one per file, carrying that file's
name, in the same relative order as the files were enumerated. (The
side condition rules out a file whose raw text itself spells a header
line.) -/
theorem claim_C3 (client : Service) (files : List (String × Except PyErr String))
    (tr : List Event)
    (hrun : processFiles client files = (tr, none))
    (hcol : ∀ g ∈ files, ∀ t, g.2 = Except.ok t →
      ∀ m ∈ files.map Prod.fst, t ≠ ("-------------\n" ++ m)) :
    tr.filter (isHeaderOf (files.map Prod.fst)) =
      files.map (fun g => Event.print ("\n-------------\n" ++ g.1)) := by
  have h1 : ∀ g ∈ files, g.1 ∈ files.map Prod.fst :=
    fun g hg => List.mem_map_of_mem Prod.fst hg
  have h := processFiles_filter_header client (files.map Prod.fst) files h1 hcol
    (by rw [hrun])
  rw [hrun] at h
  exact h

/-- C3, exercised on a two-file folder at the stub service. -/
theorem claim_C3_check :
    (processFiles stubClient twoFileFolder).1.filter
        (isHeaderOf (twoFileFolder.map Prod.fst)) =
      twoFileFolder.map (fun g => Event.print ("\n-------------\n" ++ g.1)) :=
  claim_C3 stubClient twoFileFolder
    (processFiles stubClient twoFileFolder).1
    (Prod.ext rfl rfl)
    (by
      intro g hg t ht m hm
      simp only [twoFileFolder, List.map_cons, List.map_nil] at hg hm
      rcases List.mem_cons.mp hg with rfl | hg2
      · injection ht with h2
        subst h2
        rcases List.mem_cons.mp hm with rfl | hm2
        · decide
        · rcases List.mem_cons.mp hm2 with rfl | hm3
          · decide
          · cases hm3
      · rcases List.mem_cons.mp hg2 with rfl | hg3
        · injection ht with h2
          subst h2
          rcases List.mem_cons.mp hm with rfl | hm2
          · decide
          · rcases List.mem_cons.mp hm2 with rfl | hm3
            · decide
            · cases hm3
        · cases hg3)

/-- C4: for every file whose five calls all return results, exactly
five remote calls are made, each submitting the singleton document
batch `[text]`: language detection first, then sentiment, key phrases,
entities, and linked entities, each of the latter four parameterized by
the ISO 639-1 code of the language the first call detected. -/
theorem claim_C4 (client : Service) (file_name text : String)
    (d : DetectedLanguage) (ds : List DetectedLanguage)
    (s : SentimentResult) (ss : List SentimentResult)
    (p : KeyPhrasesResult) (ps : List KeyPhrasesResult)
    (r : EntitiesResult) (rs : List EntitiesResult)
    (l : LinkedEntitiesResult) (ls : List LinkedEntitiesResult)
    (hd : client.detect_language [text] = Except.ok (d :: ds))
    (hs : client.analyze_sentiment [text] d.primary_language.iso6391_name =
      Except.ok (s :: ss))
    (hp : client.extract_key_phrases [text] d.primary_language.iso6391_name =
      Except.ok (p :: ps))
    (hr : client.recognize_entities [text] d.primary_language.iso6391_name =
      Except.ok (r :: rs))
    (hl : client.recognize_linked_entities [text] d.primary_language.iso6391_name =
      Except.ok (l :: ls)) :
    callsOf (processFile client file_name (Except.ok text)).1 =
      [Event.callDetect [text],
       Event.callSentiment [text] d.primary_language.iso6391_name,
       Event.callKeyPhrases [text] d.primary_language.iso6391_name,
       Event.callEntities [text] d.primary_language.iso6391_name,
       Event.callLinked [text] d.primary_language.iso6391_name] := by
  simp only [processFile, afterRead, hd, sentimentStage, hs, phrasesStage, hp,
    entitiesStage, hr, linkedStage, hl, seqRun]
  simp only [callsOf_cons_print, callsOf_cons_callDetect, callsOf_cons_callSentiment,
    callsOf_cons_callKeyPhrases, callsOf_cons_callEntities, callsOf_cons_callLinked,
    callsOf_append, callsOf_nil, apply_ite callsOf, callsOf_map_print,
    List.cons_append, List.nil_append, ite_self]

/-- C4, exercised at the deterministic stub service. -/
theorem claim_C4_check :
    callsOf (processFile stubClient "review1.txt" (Except.ok "Good value.")).1 =
      [Event.callDetect ["Good value."],
       Event.callSentiment ["Good value."] "en",
       Event.callKeyPhrases ["Good value."] "en",
       Event.callEntities ["Good value."] "en",
       Event.callLinked ["Good value."] "en"] :=
  claim_C4 stubClient "review1.txt" "Good value." ⟨⟨"English", "en"⟩⟩ []
    ⟨"positive", ⟨9/10, 1/20, 1/20⟩⟩ [] ⟨["great hotel"]⟩ []
    ⟨[⟨"London", "Location"⟩]⟩ []
    ⟨[⟨"London", "https://en.wikipedia.org/wiki/London"⟩]⟩ []
    rfl rfl rfl rfl rfl

/-- C6: if the remote key-phrase result for a file is the empty list,
the `Key Phrases:` section header is never printed for that file — it
is absent entirely, whatever the entity and linked-entity calls do.
(The raw text itself must not be the literal line the header would
print.) -/
theorem claim_C6 (client : Service) (file_name t : String)
    (d : DetectedLanguage) (ds : List DetectedLanguage)
    (p : KeyPhrasesResult) (ps : List KeyPhrasesResult)
    (hd : client.detect_language [t] = Except.ok (d :: ds))
    (hp : client.extract_key_phrases [t] d.primary_language.iso6391_name =
      Except.ok (p :: ps))
    (hemp : p.key_phrases = [])
    (ht : t ≠ "Key Phrases:") :
    "\nKey Phrases:" ∉ printsOf (processFile client file_name (Except.ok t)).1 := by
  rw [mem_printsOf]
  simp only [processFile, afterRead, hd]
  intro hmem
  simp only [List.mem_cons] at hmem
  rcases hmem with h | h | h | h | h
  · exact key_ne_sep file_name (by injection h)
  · exact key_ne_text ht (by injection h)
  · exact Event.noConfusion h
  · exact key_ne_lang d.primary_language.name (by injection h)
  · rcases seqRun_fst_mem h with h1 | h23
    · exact key_not_in_sentimentStage client t d.primary_language.iso6391_name h1
    rcases seqRun_fst_mem h23 with h2 | h34
    · simp [phrasesStage, hp, hemp] at h2
    rcases seqRun_fst_mem h34 with h3 | h4
    · exact key_not_in_entitiesStage client t d.primary_language.iso6391_name h3
    · exact key_not_in_linkedStage client t d.primary_language.iso6391_name h4

/-- C6, exercised at the stub whose key-phrase result is empty. -/
theorem claim_C6_check :
    "\nKey Phrases:" ∉ printsOf (processFile quietClient "r1.txt" (Except.ok "Meh.")).1 :=
  claim_C6 quietClient "r1.txt" "Meh." ⟨⟨"English", "en"⟩⟩ [] ⟨[]⟩ []
    rfl rfl rfl (by decide)

/-- C10: for every file whose read succeeds, the trace starts with the
file-name header print and the raw-text print — neither a remote call —
so whatever the five remote calls later do (succeed or raise), those
two prints are already in the output. -/
theorem claim_C10 (client : Service) (file_name text : String) :
    (∃ rest, (processFile client file_name (Except.ok text)).1 =
        Event.print ("\n-------------\n" ++ file_name) ::
          Event.print ("\n" ++ text) :: rest) ∧
      isCall (Event.print ("\n-------------\n" ++ file_name)) = false ∧
      isCall (Event.print ("\n" ++ text)) = false :=
  ⟨⟨(afterRead client text).1, rfl⟩, rfl, rfl⟩

/-- C1: an exception raised anywhere in the body — during setup,
folder listing, or any per-file step — whose class derives from
`Exception` is caught once at the top level, its description is printed
as the single appended event, and the process exits normally with code
0; the handler performs no retry and no further work. -/
theorem claim_C1 (setup : Except PyErr Service)
    (listing : Except PyErr (List (String × Except PyErr String)))
    (tr : List Event) (res : Option PyErr)
    (hrun : bodyRun setup listing = (tr, res))
    (hcatch : ∀ e, res = some e → e.catchable = true) :
    mainRun setup listing =
      (tr ++ res.elim [] (fun e => [Event.print e.msg]), ExitStatus.normal 0) := by
  cases res with
  | none =>
    unfold mainRun
    rw [hrun]
    simp
  | some e =>
    unfold mainRun
    rw [hrun]
    simp [hcatch e rfl]

/-- C1, exercised on a run whose folder listing raises a catchable
network error. -/
theorem claim_C1_check :
    bodyRun (Except.ok stubClient) (Except.error netErr) = ([], some netErr) ∧
      mainRun (Except.ok stubClient) (Except.error netErr) =
        ([Event.print netErr.msg], ExitStatus.normal 0) :=
  ⟨rfl, claim_C1 (Except.ok stubClient) (Except.error netErr) [] (some netErr) rfl
    (by intro e he; cases he; rfl)⟩

/-- C9: an exception whose class does not derive from `Exception`
(such as `KeyboardInterrupt` or `SystemExit`) is not caught by the
`except Exception` handler: it propagates out of `main` and the process
terminates abnormally, with no error print appended. -/
theorem claim_C9 (setup : Except PyErr Service)
    (listing : Except PyErr (List (String × Except PyErr String)))
    (tr : List Event) (e : PyErr)
    (hrun : bodyRun setup listing = (tr, some e))
    (hun : e.catchable = false) :
    mainRun setup listing = (tr, ExitStatus.uncaught e) := by
  unfold mainRun
  rw [hrun]
  simp [hun]

theorem processFiles_fail (client : Service)
    (pre post : List (String × Except PyErr String))
    (f : String × Except PyErr String) (tr : List Event) (e : PyErr)
    (hpre : ∀ g ∈ pre, (processFile client g.1 g.2).2 = none)
    (hf : processFile client f.1 f.2 = (tr, some e)) :
    processFiles client (pre ++ f :: post) =
      ((pre.map (fun g => (processFile client g.1 g.2).1)).flatten ++ tr, some e) := by
  induction pre with
  | nil =>
    rw [List.nil_append, processFiles_cons, hf]
    simp
  | cons g pre ih =>
    have hg : processFile client g.1 g.2 = ((processFile client g.1 g.2).1, none) :=
      Prod.ext rfl (hpre g (List.mem_cons_self g pre))
    have ih2 := ih (fun x hx => hpre x (List.mem_cons_of_mem g hx))
    rw [List.cons_append, processFiles_cons, hg, ih2]
    simp [List.append_assoc]

/-- C5: if every file before `f` processes cleanly and `f`'s processing
raises a catchable exception, the run's output is exactly the earlier
files' output (not rolled back), then `f`'s partial output, then the
error description; the files after `f` contribute nothing, the error
message is the last line printed, and the process exits normally. -/
theorem claim_C5 (client : Service)
    (pre post : List (String × Except PyErr String))
    (f : String × Except PyErr String) (tr : List Event) (e : PyErr)
    (hpre : ∀ g ∈ pre, (processFile client g.1 g.2).2 = none)
    (hf : processFile client f.1 f.2 = (tr, some e))
    (hc : e.catchable = true) :
    mainRun (Except.ok client) (Except.ok (pre ++ f :: post)) =
        ((pre.map (fun g => (processFile client g.1 g.2).1)).flatten ++ tr ++
          [Event.print e.msg], ExitStatus.normal 0) ∧
      (printsOf ((pre.map (fun g => (processFile client g.1 g.2).1)).flatten ++ tr ++
        [Event.print e.msg])).getLast? = some e.msg := by
  constructor
  · have hb : bodyRun (Except.ok client) (Except.ok (pre ++ f :: post)) =
        ((pre.map (fun g => (processFile client g.1 g.2).1)).flatten ++ tr, some e) :=
      processFiles_fail client pre post f tr e hpre hf
    unfold mainRun
    rw [hb]
    simp [hc, List.append_assoc]
  · rw [printsOf_append, printsOf_cons_print, printsOf_nil]
    exact List.getLast?_concat _

/-- C5, exercised on a three-file folder whose middle file trips a
network error in entity recognition: the first file's output survives,
the third file is never touched, and the error message comes last. -/
theorem claim_C5_check :
    mainRun (Except.ok flakyClient)
        (Except.ok [("r1.txt", Except.ok "Nice place."),
          ("r2.txt", Except.ok "This is bad."),
          ("r3.txt", Except.ok "Unseen.")]) =
        (([("r1.txt", Except.ok "Nice place.")].map
            (fun g => (processFile flakyClient g.1 g.2).1)).flatten ++
          (processFile flakyClient "r2.txt" (Except.ok "This is bad.")).1 ++
          [Event.print netErr.msg], ExitStatus.normal 0) ∧
      (printsOf (([("r1.txt", Except.ok "Nice place.")].map
          (fun g => (processFile flakyClient g.1 g.2).1)).flatten ++
        (processFile flakyClient "r2.txt" (Except.ok "This is bad.")).1 ++
        [Event.print netErr.msg])).getLast? = some netErr.msg :=
  claim_C5 flakyClient [("r1.txt", Except.ok "Nice place.")]
    [("r3.txt", Except.ok "Unseen.")] ("r2.txt", Except.ok "This is bad.")
    (processFile flakyClient "r2.txt" (Except.ok "This is bad.")).1 netErr
    (by intro g hg; simp only [List.mem_singleton] at hg; subst hg; rfl)
    (Prod.ext rfl rfl) rfl

/-- C8: the processor is deterministic — two runs against the same
setup, folder listing, and stub service produce byte-identical standard
output and the same exit status; nothing run-dependent enters the
output. -/
theorem claim_C8 (setup₁ setup₂ : Except PyErr Service)
    (listing₁ listing₂ : Except PyErr (List (String × Except PyErr String)))
    (hs : setup₁ = setup₂) (hl : listing₁ = listing₂) :
    stdoutOf (mainRun setup₁ listing₁) = stdoutOf (mainRun setup₂ listing₂) ∧
      (mainRun setup₁ listing₁).2 = (mainRun setup₂ listing₂).2 := by
  subst hs
  subst hl
  exact ⟨rfl, rfl⟩

/-- C8, exercised by running the stub twice over the same folder. -/
theorem claim_C8_check :
    stdoutOf (mainRun (Except.ok stubClient)
        (Except.ok [("a.txt", Except.ok "One."), ("b.txt", Except.ok "Two.")])) =
      stdoutOf (mainRun (Except.ok stubClient)
        (Except.ok [("a.txt", Except.ok "One."), ("b.txt", Except.ok "Two.")])) ∧
      (mainRun (Except.ok stubClient)
        (Except.ok [("a.txt", Except.ok "One."), ("b.txt", Except.ok "Two.")])).2 =
      (mainRun (Except.ok stubClient)
        (Except.ok [("a.txt", Except.ok "One."), ("b.txt", Except.ok "Two.")])).2 :=
  claim_C8 (Except.ok stubClient) (Except.ok stubClient)
    (Except.ok [("a.txt", Except.ok "One."), ("b.txt", Except.ok "Two.")])
    (Except.ok [("a.txt", Except.ok "One."), ("b.txt", Except.ok "Two.")]) rfl rfl

/-- C9, exercised on a run interrupted by `KeyboardInterrupt` while
listing the folder. -/
theorem claim_C9_check :
    bodyRun (Except.ok stubClient) (Except.error keyboardInterrupt) =
        ([], some keyboardInterrupt) ∧
      mainRun (Except.ok stubClient) (Except.error keyboardInterrupt) =
        ([], ExitStatus.uncaught keyboardInterrupt) :=
  ⟨rfl, claim_C9 _ _ [] keyboardInterrupt rfl rfl⟩

end TextAnalysis
